import Mathlib

/-!
Verification of the `file-dougu-rs` resource-access library.

The Rust sources are shallowly embedded: Rust `String`/`&str` values become
`List Char`, byte buffers (`Vec<u8>`) become `List Nat`, fallible functions
return `Except`, and asynchronous backend calls (the `cloud_storage` SDK,
HTTP client, and gzip codec, all external collaborators) are oracles passed
in as function arguments.  Each embedded definition carries the name of the
Rust item it models.
-/

deriving instance DecidableEq for Except

namespace FileDougu

/-- Rust strings are embedded as lists of characters. -/
abbrev Str := List Char

/-- Build a `Str` from a Lean string literal (used for concrete inputs). -/
def str (s : String) : Str := s.data

/-- Byte buffers (`Vec<u8>`): each element is a byte value `< 256`. -/
abbrev Bytes := List Nat

/-- `s.ends_with("/")` on a Rust string. -/
def endsWithSlash (s : Str) : Bool := s.getLast? == some '/'

/-! ## Compression (src/compression/mod.rs) -/

/-- `CompressionError` (src/compression/mod.rs).  The payload of the Rust
`IOError` variant (an `std::io::Error`) is elided. -/
inductive CompressionError
  | IOError
deriving DecidableEq

/-- `enum Compression` (src/compression/mod.rs): the single `Gzip` variant. -/
inductive Compression
  | Gzip
deriving DecidableEq

/-- `Compression::decompress` (src/compression/mod.rs).  `gzip_decompress`
lives in src/compression/gzip.rs, which is an external codec collaborator;
it is passed in as the oracle `dec`. -/
def Compression.decompress (dec : Bytes → Except CompressionError Bytes)
    (c : Compression) (bytes : Bytes) : Except CompressionError Bytes :=
  match c with
  | .Gzip => dec bytes

/-- `decompress_opt` (src/compression/mod.rs lines 46-58). -/
def decompress_opt (dec : Bytes → Except CompressionError Bytes)
    (data : Option Bytes) (decompression : Option Compression) :
    Except CompressionError (Option Bytes) :=
  match data, decompression with
  | none, _ => .ok none
  | some contents, none => .ok (some contents)
  | some contents, some compression =>
    match Compression.decompress dec compression contents with
    | .ok d => .ok (some d)
    | .error e => .error e

/-- Rust `Path::file_name`: the last path component, after normalizing away
empty components and interior `.` components; `None` when the path is empty
or terminates in `..`. -/
def rustFileName (p : Str) : Option Str :=
  let comps := (p.splitOn '/').filter (fun c => decide (c ≠ [] ∧ c ≠ ['.']))
  match comps.getLast? with
  | none => none
  | some last => if last = str ("..") then none else some last

/-- Rust `Path::extension`: the part of the file name after the final `.`;
`None` when there is no `.` or when the file name starts with its only `.`. -/
def rustExtension (p : Str) : Option Str :=
  match rustFileName p with
  | none => none
  | some f =>
    let rf := f.reverse
    let extRev := rf.takeWhile (fun c => c != '.')
    if extRev.length = rf.length then none
    else if rf.drop (extRev.length + 1) = [] then none
    else some extRev.reverse

/-- `Compression::from_extention` (src/compression/mod.rs lines 31-43). -/
def Compression.from_extention (path : Str) : Option Compression :=
  match rustExtension path with
  | none => none
  | some ext =>
    if ext = str ("gzip") ∨ ext = str ("gz") then some Compression.Gzip
    else none

/-! ## GCS address model (src/gcs/mod.rs) -/

/-- A slice of `cloud_storage::Error` (the external storage SDK's error
type): `Google err` records whether `err.errors_has_reason(NotFound)`
holds; every other SDK error shape is `Other`. -/
inductive CSError
  | Google : Bool → CSError
  | Other : CSError
deriving DecidableEq

/-- `FileUtilGcsError` (src/gcs/mod.rs lines 23-39).  String payloads keep
the `Str` the source interpolates into the message; the English message
text itself is elided. -/
inductive GcsError
  | GcsInvalidBucketPathError : Str → GcsError
  | UrlParseError : GcsError
  | StorageAccessError : CSError → GcsError
  | InvalidGcsUrl : Str → GcsError
  | CompressionError : CompressionError → GcsError
deriving DecidableEq

/-- `struct GcsFile` (src/gcs/mod.rs lines 94-99). -/
structure GcsFile where
  bucket : Str
  name : Str
  trailing_slash : Bool
deriving DecidableEq

/-- The literal `gs://`. -/
def gsPrefix : Str := ['g', 's', ':', '/', '/']

/-- The capture groups of `GCS_BUCKET_RE = gs://(?P<bucket>[^/]*)/?(?P<name>.*)`
(src/gcs/mod.rs line 43) on a string that starts with `gs://` (the only way
its callers reach it): `bucket` is the maximal run of non-`/` characters,
`/?` consumes one following `/` if present (after `[^/]*` the remainder is
empty or starts with `/`, so this is `drop 1`), and `.*` captures the rest
up to the first newline (`.` does not match `\n` in the Rust regex crate). -/
def gcsCapture (s : Str) : Str × Str :=
  let rest := s.drop 5
  let bucket := rest.takeWhile (fun c => c != '/')
  let afterBucket := rest.dropWhile (fun c => c != '/')
  let name := (afterBucket.drop 1).takeWhile (fun c => c != '\n')
  (bucket, name)

/-- `GcsFile::parse_bucket_and_name_from_url` (src/gcs/mod.rs lines 102-123),
on the serialized URL string.  Its caller has already checked the `gs://`
prefix, so the regex always matches and the capture-failure branch is dead. -/
def GcsFile.parse_bucket_and_name_from_url (s : Str) :
    Except GcsError (Str × Str × Bool) :=
  let (bucket, name) := gcsCapture s
  if bucket = [] ∨ name = [] ∨ name.head? = some '/' then
    .error (.InvalidGcsUrl s)
  else if endsWithSlash name then
    .ok (bucket, name.dropLast, true)
  else
    .ok (bucket, name, false)

/-- `GcsFile::new_with_url` (src/gcs/mod.rs lines 170-186), on the
serialized URL string. -/
def GcsFile.new_with_url (s : Str) : Except GcsError GcsFile :=
  if gsPrefix.isPrefixOf s = false then
    .error (.GcsInvalidBucketPathError s)
  else
    match GcsFile.parse_bucket_and_name_from_url s with
    | .ok (bucket, name, trailing_slash) => .ok ⟨bucket, name, trailing_slash⟩
    | .error e => .error e

/-- `impl fmt::Display for GcsFile` (src/gcs/mod.rs lines 291-296):
`gs://{bucket}/{name}` with a trailing `/` iff `trailing_slash`. -/
def GcsFile.render (f : GcsFile) : Str :=
  gsPrefix ++ f.bucket ++ ['/'] ++ f.name ++
    (if f.trailing_slash then ['/'] else [])

/-- Characters on which the external URL parser is modelled as leaving the
input untouched: ASCII alphanumerics and `-`, `_`, `.`, `~`. -/
def urlSafeChar (c : Char) : Bool :=
  c.isAlphanum || c == '-' || c == '_' || c == '.' || c == '~'

/-- A scheme name as the URL grammar requires: an ASCII letter followed by
letters, digits, `+`, `-`, `.`. -/
def validSchemeName (sch : Str) : Bool :=
  match sch with
  | [] => false
  | c :: rest => c.isAlpha && rest.all (fun d => d.isAlphanum || d == '+' || d == '-' || d == '.')

/-- Modelled from the spec: `url::Url::parse`, the external URL-parsing
collaborator (the `url` crate, not part of this repository).  The spec
(§4.1) treats it as a validator that accepts well-formed absolute URLs and
keeps names verbatim (no percent-decoding).  We model it on canonical
identifiers: a valid scheme followed by `:` and characters the parser
leaves unescaped (plus `/` separators); there it succeeds and serializes
back to the input unchanged.  Anything else is conservatively a parse
failure (`none`). -/
def urlParseModel (s : Str) : Option Str :=
  let scheme := s.takeWhile (fun c => c != ':')
  if scheme.length = s.length then none
  else if validSchemeName scheme &&
      (s.drop (scheme.length + 1)).all (fun c => urlSafeChar c || c == '/') then
    some s
  else none

/-- `GcsFile::new` (src/gcs/mod.rs lines 125-128): `Url::parse` (modelled by
`urlParseModel`) followed by `new_with_url` on the serialized URL. -/
def GcsFile.new (s : Str) : Except GcsError GcsFile :=
  match urlParseModel s with
  | none => .error .UrlParseError
  | some u => GcsFile.new_with_url u

/-! ## Dispatcher (src/lib.rs) -/

/-- Which backend a call is dispatched to, with the address it receives. -/
inductive Route
  | gcs : GcsFile → Route
  | web : Str → Route
  | localFs : Str → Route
deriving DecidableEq

/-- The dispatch control flow of `get_file_contents` (src/lib.rs lines
70-98), with all cargo features (`gcs`, `web`, `fs`) enabled: if
`Url::parse` succeeds, try `GcsFile::new_with_url` on the parsed URL; on
success use the GCS backend, otherwise fall into the unconditional `web`
block; if URL parsing fails, fall through to the local filesystem backend
with the identifier verbatim. -/
def get_file_contents_route (s : Str) : Route :=
  match urlParseModel s with
  | some u =>
    match GcsFile.new_with_url u with
    | .ok gcs_file => .gcs gcs_file
    | .error _ => .web u
  | none => .localFs s

/-! ## UTF-8 decoding (`std::str::from_utf8`) -/

/-- A UTF-8 continuation byte (`0x80..=0xBF`). -/
def isCont (b : Nat) : Bool := decide (0x80 ≤ b ∧ b ≤ 0xBF)

/-- Allowed second byte after a three-byte leader, per RFC 3629
(`E0` excludes overlongs, `ED` excludes surrogates). -/
def eSecondOk (b b2 : Nat) : Bool :=
  if b = 0xE0 then decide (0xA0 ≤ b2 ∧ b2 ≤ 0xBF)
  else if b = 0xED then decide (0x80 ≤ b2 ∧ b2 ≤ 0x9F)
  else isCont b2

/-- Allowed second byte after a four-byte leader, per RFC 3629
(`F0` excludes overlongs, `F4` caps at `U+10FFFF`). -/
def fSecondOk (b b2 : Nat) : Bool :=
  if b = 0xF0 then decide (0x90 ≤ b2 ∧ b2 ≤ 0xBF)
  else if b = 0xF4 then decide (0x80 ≤ b2 ∧ b2 ≤ 0x8F)
  else isCont b2

/-- `std::str::from_utf8`: decode a byte sequence as UTF-8 (RFC 3629, the
validation Rust performs), `none` on malformed input. -/
def utf8Decode : Bytes → Option (List Char)
  | [] => some []
  | b :: rest =>
    if b ≤ 0x7F then
      (utf8Decode rest).map (fun t => Char.ofNat b :: t)
    else if 0xC2 ≤ b ∧ b ≤ 0xDF then
      match rest with
      | b2 :: rest2 =>
        if isCont b2 then
          (utf8Decode rest2).map
            (fun t => Char.ofNat ((b - 0xC0) * 0x40 + (b2 - 0x80)) :: t)
        else none
      | [] => none
    else if 0xE0 ≤ b ∧ b ≤ 0xEF then
      match rest with
      | b2 :: b3 :: rest3 =>
        if eSecondOk b b2 && isCont b3 then
          (utf8Decode rest3).map
            (fun t => Char.ofNat (((b - 0xE0) * 0x40 + (b2 - 0x80)) * 0x40 + (b3 - 0x80)) :: t)
        else none
      | _ => none
    else if 0xF0 ≤ b ∧ b ≤ 0xF4 then
      match rest with
      | b2 :: b3 :: b4 :: rest4 =>
        if fSecondOk b b2 && isCont b3 && isCont b4 then
          (utf8Decode rest4).map
            (fun t => Char.ofNat ((((b - 0xF0) * 0x40 + (b2 - 0x80)) * 0x40 + (b3 - 0x80)) * 0x40 + (b4 - 0x80)) :: t)
        else none
      | _ => none
    else none

/-- `FileUtilError` (src/lib.rs lines 15-25); the web and fs payloads are
elided (no claim inspects them). -/
inductive FileUtilError
  | GcsErrorCase : GcsError → FileUtilError
  | WebErrorCase : FileUtilError
  | FsErrorCase : FileUtilError
deriving DecidableEq

/-- The outcome of Rust code that may panic: either a value or a panic
(`unwrap` on `None`/`Err` aborts the process instead of returning). -/
inductive PanicOr (α : Type)
  | ok : α → PanicOr α
  | panicked : PanicOr α
deriving DecidableEq

/-- `get_file_contents_str` (src/lib.rs lines 59-68), parametrized by the
outcome `r` of the inner `get_file_contents` call: errors and the `None`
payload pass through; a `Some` payload goes through
`std::str::from_utf8(..).unwrap()`, which panics on invalid UTF-8. -/
def get_file_contents_str (r : Except FileUtilError (Option Bytes)) :
    PanicOr (Except FileUtilError (Option (List Char))) :=
  match r with
  | .error e => .ok (.error e)
  | .ok none => .ok (.ok none)
  | .ok (some contents) =>
    match utf8Decode contents with
    | some s => .ok (.ok (some s))
    | none => .panicked

/-! ## Retry executor (the `backoff` crate, modelled from the spec) -/

/-- `backoff::Error`: the classification the retried closure returns. -/
inductive BackoffError (ε : Type)
  | Transient : ε → BackoffError ε
  | Permanent : ε → BackoffError ε
deriving DecidableEq

/-- Modelled from the spec (§4.3): `backoff::future::retry`, the external
retry-with-backoff combinator (the `backoff` crate, not part of this
repository).  The operation is invoked; `Ok` returns immediately,
`Permanent` errors abort immediately and are propagated unchanged,
`Transient` errors retry after a backoff wait until the elapsed-time budget
runs out, at which point the last transient error is returned.  The time
budget is modelled as `fuel` (remaining retries); backoff waiting itself is
timing and is not modelled.  The operation takes the attempt index and
returns its result together with the number of external backend calls it
made; `retryExec` returns the final result, the number of times the
operation was invoked, and the total number of backend calls. -/
def retryExec (op : Nat → Except (BackoffError ε) α × Nat) :
    Nat → Nat → Except ε α × Nat × Nat
  | fuel, i =>
    let (r, k) := op i
    match r with
    | .ok a => (.ok a, 1, k)
    | .error (.Permanent e) => (.error e, 1, k)
    | .error (.Transient e) =>
      match fuel with
      | 0 => (.error e, 1, k)
      | fuel' + 1 =>
        let (r2, n2, k2) := retryExec op fuel' (i + 1)
        (r2, n2 + 1, k + k2)

/-- `retryExec` started at attempt 0. -/
def retryRun (op : Nat → Except (BackoffError ε) α × Nat) (fuel : Nat) :
    Except ε α × Nat × Nat :=
  retryExec op fuel 0

/-! ## GCS backend operations (src/gcs/mod.rs) -/

/-- The external `cloud_storage` SDK (`Object::read` / `download` /
`create` / `delete`), modelled as an oracle giving the SDK outcome at each
attempt index.  Each consultation of the oracle is one backend call. -/
structure GcsOracle where
  objRead : Nat → Except CSError Unit
  objDownload : Nat → Except CSError Bytes
  objCreate : Nat → Except CSError Unit
  objDelete : Nat → Except CSError Unit

/-- `object_exists` (src/gcs/mod.rs lines 298-324) at attempt `i`: guard
against a trailing `/`, then one `Object::read` backend call; a Google
error whose reasons include `NotFound` becomes `Ok(false)`, every other
error is surfaced as `StorageAccessError`.  Returns the result and the
number of backend calls made. -/
def object_exists (o : GcsOracle) (i : Nat) (_bucket name : Str) :
    Except GcsError Bool × Nat :=
  if endsWithSlash name then
    (.error (.GcsInvalidBucketPathError name), 0)
  else
    match o.objRead i with
    | .ok _ => (.ok true, 1)
    | .error (.Google nf) =>
      if nf then (.ok false, 1)
      else (.error (.StorageAccessError (.Google nf)), 1)
    | .error .Other => (.error (.StorageAccessError .Other), 1)

/-- `download_object` (src/gcs/mod.rs lines 414-424) at attempt `i`. -/
def download_object (o : GcsOracle) (i : Nat) (_bucket name : Str) :
    Except GcsError Bytes × Nat :=
  if endsWithSlash name then
    (.error (.GcsInvalidBucketPathError name), 0)
  else
    match o.objDownload i with
    | .ok body => (.ok body, 1)
    | .error e => (.error (.StorageAccessError e), 1)

/-- `delete_object` (src/gcs/mod.rs lines 437-447) at attempt `i`. -/
def delete_object (o : GcsOracle) (i : Nat) (_bucket path : Str) :
    Except GcsError Unit × Nat :=
  if endsWithSlash path then
    (.error (.GcsInvalidBucketPathError path), 0)
  else
    match o.objDelete i with
    | .ok _ => (.ok (), 1)
    | .error e => (.error (.StorageAccessError e), 1)

/-- `GcsFile::download` (src/gcs/mod.rs lines 213-219) at attempt `i`:
`if let Ok(true) = object_exists(..)` downloads; every other outcome of the
existence check — `Ok(false)` and `Err(_)` alike — falls into the `else`
branch and yields `Ok(None)`. -/
def GcsFile.download (o : GcsOracle) (i : Nat) (bucket name : Str) :
    Except GcsError (Option Bytes) × Nat :=
  let (r, k) := object_exists o i bucket name
  match r with
  | .ok true =>
    let (r2, k2) := download_object o i bucket name
    (match r2 with
     | .ok body => .ok (some body)
     | .error e => .error e, k + k2)
  | _ => (.ok none, k)

/-- `GcsFile::is_exists_with_retry` (src/gcs/mod.rs lines 188-211): reject
a `trailing_slash` address before entering the retry loop; inside the loop
every `object_exists` error is classified `Transient`.  Returns the result,
the number of closure invocations and the number of backend calls. -/
def GcsFile.is_exists_with_retry (o : GcsOracle) (f : GcsFile) (fuel : Nat) :
    Except GcsError Bool × Nat × Nat :=
  if f.trailing_slash then
    (.error (.GcsInvalidBucketPathError f.name), 0, 0)
  else
    retryRun (fun i =>
      let (r, k) := object_exists o i f.bucket f.name
      (r.mapError BackoffError.Transient, k)) fuel

/-- `GcsFile::download_with_retry` (src/gcs/mod.rs lines 221-250): reject a
`trailing_slash` address before the retry loop; retry `GcsFile::download`
classifying every error `Transient`; then `decompress_opt` on the payload. -/
def GcsFile.download_with_retry (o : GcsOracle)
    (dec : Bytes → Except CompressionError Bytes) (f : GcsFile) (fuel : Nat)
    (decompression : Option Compression) :
    Except GcsError (Option Bytes) × Nat × Nat :=
  if f.trailing_slash then
    (.error (.GcsInvalidBucketPathError f.name), 0, 0)
  else
    let (r, n, k) := retryRun (fun i =>
      let (r, k) := GcsFile.download o i f.bucket f.name
      (r.mapError BackoffError.Transient, k)) fuel
    match r with
    | .error e => (.error e, n, k)
    | .ok contents =>
      match decompress_opt dec contents decompression with
      | .ok result => (.ok result, n, k)
      | .error ce => (.error (.CompressionError ce), n, k)

/-- `GcsFile::delete_with_retry` (src/gcs/mod.rs lines 280-288): no
`trailing_slash` guard — it goes straight into the retry loop around
`delete_object`, classifying every error `Transient`. -/
def GcsFile.delete_with_retry (o : GcsOracle) (f : GcsFile) (fuel : Nat) :
    Except GcsError Unit × Nat × Nat :=
  retryRun (fun i =>
    let (r, k) := delete_object o i f.bucket f.name
    (r.mapError BackoffError.Transient, k)) fuel

/-! ## Concrete oracles for witnesses and counterexamples -/

/-- An environment where every SDK call succeeds (downloads are empty). -/
def okOracle : GcsOracle where
  objRead := fun _ => .ok ()
  objDownload := fun _ => .ok []
  objCreate := fun _ => .ok ()
  objDelete := fun _ => .ok ()

/-- An environment where `Object::read` fails with a non-`NotFound`
transport error. -/
def transportFailOracle : GcsOracle where
  objRead := fun _ => .error .Other
  objDownload := fun _ => .ok []
  objCreate := fun _ => .ok ()
  objDelete := fun _ => .ok ()

/-- The identity codec oracle (decompression that returns its input). -/
def idDec : Bytes → Except CompressionError Bytes := fun b => .ok b

/-! ## Helper lemmas -/

theorem takeWhile_append_stop {p : Char → Bool} {l : Str} (x : Char) (r : Str)
    (hl : ∀ c ∈ l, p c = true) (hx : p x = false) :
    (l ++ x :: r).takeWhile p = l := by
  induction l with
  | nil => simp [List.takeWhile_cons, hx]
  | cons a t ih =>
    have ha : p a = true := hl a (by simp)
    simp only [List.cons_append, List.takeWhile_cons, ha, if_true]
    rw [ih (fun c hc => hl c (by simp [hc]))]

theorem dropWhile_append_stop {p : Char → Bool} {l : Str} (x : Char) (r : Str)
    (hl : ∀ c ∈ l, p c = true) (hx : p x = false) :
    (l ++ x :: r).dropWhile p = x :: r := by
  induction l with
  | nil => simp [List.dropWhile_cons, hx]
  | cons a t ih =>
    have ha : p a = true := hl a (by simp)
    simp only [List.cons_append, List.dropWhile_cons, ha, if_true]
    exact ih (fun c hc => hl c (by simp [hc]))

theorem takeWhile_of_all {p : Char → Bool} {l : Str}
    (hl : ∀ c ∈ l, p c = true) : l.takeWhile p = l := by
  induction l with
  | nil => rfl
  | cons a t ih =>
    have ha : p a = true := hl a (by simp)
    simp only [List.takeWhile_cons, ha, if_true]
    rw [ih (fun c hc => hl c (by simp [hc]))]

theorem head?_append_left {l : Str} (t : Str) (h : l ≠ []) :
    (l ++ t).head? = l.head? := by
  cases l with
  | nil => exact absurd rfl h
  | cons a m => rfl

theorem head?_dropLast {l : Str} (h : 2 ≤ l.length) :
    l.dropLast.head? = l.head? := by
  match l, h with
  | a :: b :: t, _ => rfl

theorem parse_bucket_inv (s b n : Str) (tr : Bool)
    (h : GcsFile.parse_bucket_and_name_from_url s = .ok (b, n, tr)) :
    b ≠ [] ∧ n ≠ [] ∧ n.head? ≠ some '/' ∧
    (tr = true → (gcsCapture s).2 = n ++ ['/']) ∧
    (tr = false → (gcsCapture s).2 = n) := by
  unfold GcsFile.parse_bucket_and_name_from_url at h
  rcases hc : gcsCapture s with ⟨cb, cn⟩
  rw [hc] at h
  dsimp only at h ⊢
  by_cases h1 : cb = [] ∨ cn = [] ∨ cn.head? = some '/'
  · rw [if_pos h1] at h
    exact absurd h (by simp)
  · rw [if_neg h1] at h
    push_neg at h1
    obtain ⟨hb, hn, hh⟩ := h1
    by_cases h2 : endsWithSlash cn = true
    · rw [if_pos h2] at h
      have hlast : cn.getLast? = some '/' := by simpa [endsWithSlash] using h2
      injection h with h'
      injection h' with hb' h''
      injection h'' with hn' ht'
      subst hb'
      subst hn'
      subst ht'
      refine ⟨hb, ?_, ?_, fun _ => ?_, fun hcontra => Bool.noConfusion hcontra⟩
      · cases cn with
        | nil => exact absurd rfl hn
        | cons a t =>
          cases t with
          | nil =>
            exfalso
            simp only [List.getLast?_singleton, Option.some.injEq] at hlast
            exact hh (by simp [hlast])
          | cons a2 t2 => simp [List.dropLast]
      · cases cn with
        | nil => exact absurd rfl hn
        | cons a t =>
          cases t with
          | nil =>
            exfalso
            simp only [List.getLast?_singleton, Option.some.injEq] at hlast
            exact hh (by simp [hlast])
          | cons a2 t2 =>
            simp only [List.dropLast]
            exact hh
      · exact (List.dropLast_append_getLast? '/' hlast).symm
    · rw [if_neg h2] at h
      injection h with h'
      injection h' with hb' h''
      injection h'' with hn' ht'
      subst hb'
      subst hn'
      subst ht'
      exact ⟨hb, hn, hh, fun hcontra => Bool.noConfusion hcontra, fun _ => rfl⟩

theorem urlSafeChar_bne_slash {c : Char} (h : urlSafeChar c = true) :
    (c != '/') = true := by
  refine bne_iff_ne.mpr (fun hEq => ?_)
  rw [hEq] at h
  exact absurd h (by decide)

theorem pathChar_bne_newline {c : Char}
    (h : (urlSafeChar c || c == '/') = true) : (c != '\n') = true := by
  refine bne_iff_ne.mpr (fun hEq => ?_)
  rw [hEq] at h
  exact absurd h (by decide)

theorem urlParseModel_gsPrefix (T : Str)
    (hT : ∀ c ∈ T, (urlSafeChar c || c == '/') = true) :
    urlParseModel (gsPrefix ++ T) = some (gsPrefix ++ T) := by
  have hcons : gsPrefix ++ T = 'g' :: 's' :: ':' :: '/' :: '/' :: T := rfl
  rw [hcons]
  have htw : List.takeWhile (fun c => c != ':') ('g' :: 's' :: ':' :: '/' :: '/' :: T) =
      ['g', 's'] := by
    rw [List.takeWhile_cons_of_pos (by decide), List.takeWhile_cons_of_pos (by decide),
        List.takeWhile_cons_of_neg (by simp)]
  simp only [urlParseModel, htw]
  rw [if_neg (by intro hlen; simp [List.length_cons] at hlen)]
  have hdrop : List.drop (List.length ['g', 's'] + 1) ('g' :: 's' :: ':' :: '/' :: '/' :: T) =
      '/' :: '/' :: T := rfl
  rw [if_pos ?hcond]
  case hcond =>
    rw [hdrop]
    simp only [List.all_cons]
    rw [show validSchemeName ['g', 's'] = true from rfl,
        show (urlSafeChar '/' || '/' == '/') = true from by decide]
    simp only [Bool.true_and]
    exact List.all_eq_true.mpr hT

theorem gcsCapture_canonical (bucket rest2 : Str)
    (hbnc : ∀ c ∈ bucket, (c != '/') = true)
    (hr : ∀ c ∈ rest2, (c != '\n') = true) :
    gcsCapture (gsPrefix ++ (bucket ++ '/' :: rest2)) = (bucket, rest2) := by
  have hdrop : (gsPrefix ++ (bucket ++ '/' :: rest2)).drop 5 = bucket ++ '/' :: rest2 := rfl
  simp only [gcsCapture, hdrop]
  rw [takeWhile_append_stop '/' rest2 hbnc (by simp),
      dropWhile_append_stop '/' rest2 hbnc (by simp)]
  rw [show ('/' :: rest2).drop 1 = rest2 from rfl, takeWhile_of_all hr]

theorem parse_canonical (bucket name : Str) (tr : Bool)
    (hb : bucket ≠ [])
    (hbnc : ∀ c ∈ bucket, (c != '/') = true)
    (hn : name ≠ [])
    (hnn : ∀ c ∈ name, (c != '\n') = true)
    (hh : name.head? ≠ some '/')
    (hl : name.getLast? ≠ some '/') :
    GcsFile.parse_bucket_and_name_from_url
        (gsPrefix ++ (bucket ++ '/' :: (name ++ (if tr then ['/'] else [])))) =
      .ok (bucket, name, tr) := by
  cases tr with
  | false =>
    simp only [Bool.false_eq_true, if_false, List.append_nil]
    have hcap := gcsCapture_canonical bucket name hbnc hnn
    simp only [GcsFile.parse_bucket_and_name_from_url, hcap]
    rw [if_neg (by
      push_neg
      exact ⟨hb, hn, hh⟩)]
    rw [if_neg (by
      simp only [endsWithSlash]
      intro hcontra
      exact hl (beq_iff_eq.mp hcontra))]
  | true =>
    simp only [if_true]
    have hr2 : ∀ c ∈ name ++ ['/'], (c != '\n') = true := by
      intro c hc
      rcases List.mem_append.mp hc with hc | hc
      · exact hnn c hc
      · simp only [List.mem_singleton] at hc
        subst hc
        decide
    have hcap := gcsCapture_canonical bucket (name ++ ['/']) hbnc hr2
    simp only [GcsFile.parse_bucket_and_name_from_url, hcap]
    rw [if_neg (by
      push_neg
      refine ⟨hb, ?_, ?_⟩
      · simp [List.append_eq_nil, hn]
      · rw [head?_append_left ['/'] hn]
        exact hh)]
    rw [if_pos (by simp [endsWithSlash, List.getLast?_concat])]
    rw [List.dropLast_concat ..]

theorem new_with_url_canonical (bucket name : Str) (tr : Bool)
    (hb : bucket ≠ [])
    (hbnc : ∀ c ∈ bucket, (c != '/') = true)
    (hn : name ≠ [])
    (hnn : ∀ c ∈ name, (c != '\n') = true)
    (hh : name.head? ≠ some '/')
    (hl : name.getLast? ≠ some '/') :
    GcsFile.new_with_url
        (gsPrefix ++ (bucket ++ '/' :: (name ++ (if tr then ['/'] else [])))) =
      .ok ⟨bucket, name, tr⟩ := by
  unfold GcsFile.new_with_url
  rw [if_neg (by simp [gsPrefix, List.isPrefixOf])]
  rw [parse_canonical bucket name tr hb hbnc hn hnn hh hl]

theorem gcs_new_canonical (bucket name : Str) (tr : Bool)
    (hb : bucket ≠ [])
    (hbs : ∀ c ∈ bucket, urlSafeChar c = true)
    (hn : name ≠ [])
    (hns : ∀ c ∈ name, (urlSafeChar c || c == '/') = true)
    (hh : name.head? ≠ some '/')
    (hl : name.getLast? ≠ some '/') :
    GcsFile.new (gsPrefix ++ (bucket ++ '/' :: (name ++ (if tr then ['/'] else [])))) =
      .ok ⟨bucket, name, tr⟩ := by
  have hT : ∀ c ∈ bucket ++ '/' :: (name ++ (if tr then ['/'] else [])),
      (urlSafeChar c || c == '/') = true := by
    intro c hc
    rcases List.mem_append.mp hc with hc | hc
    · rw [hbs c hc]
      rfl
    · rcases List.mem_cons.mp hc with hc | hc
      · subst hc
        decide
      · rcases List.mem_append.mp hc with hc | hc
        · exact hns c hc
        · cases tr with
          | false => cases hc
          | true =>
            simp only [if_true, List.mem_singleton] at hc
            subst hc
            decide
  unfold GcsFile.new
  rw [urlParseModel_gsPrefix _ hT]
  exact new_with_url_canonical bucket name tr hb
    (fun c hc => urlSafeChar_bne_slash (hbs c hc)) hn
    (fun c hc => pathChar_bne_newline (hns c hc)) hh hl

/-! ## Claim theorems -/

/-- C7: `decompress_opt` leaves an absent payload absent, passes a present
payload through unchanged when no codec is selected, and otherwise applies
the codec's `decompress`, propagating its error through the `Result`. -/
theorem decompress_opt_spec :
    (∀ (dec : Bytes → Except CompressionError Bytes) (d : Option Compression),
      decompress_opt dec none d = .ok none) ∧
    (∀ (dec : Bytes → Except CompressionError Bytes) (x : Bytes),
      decompress_opt dec (some x) none = .ok (some x)) ∧
    (∀ (dec : Bytes → Except CompressionError Bytes) (x : Bytes) (c : Compression),
      decompress_opt dec (some x) (some c) =
        match Compression.decompress dec c x with
        | .ok d => .ok (some d)
        | .error e => .error e) := by
  refine ⟨fun dec d => rfl, fun dec x => rfl, fun dec x c => rfl⟩

/-- C10: `Compression::from_extention` looks only at the final
dot-separated extension of the final path component and compares it
case-sensitively against the literals `gz` and `gzip`; in particular
`archive.tar.gz` infers gzip while `gz`, `file.GZ` and extensionless
paths infer nothing. -/
theorem from_extention_spec :
    (∀ p : Str, Compression.from_extention p = some Compression.Gzip ↔
      (rustExtension p = some (str ("gz")) ∨ rustExtension p = some (str ("gzip")))) ∧
    Compression.from_extention (str ("archive.tar.gz")) = some Compression.Gzip ∧
    Compression.from_extention (str ("gz")) = none ∧
    Compression.from_extention (str ("file.GZ")) = none ∧
    Compression.from_extention (str ("README")) = none := by
  refine ⟨fun p => ?_, by decide, by decide, by decide, by decide⟩
  unfold Compression.from_extention
  cases h : rustExtension p with
  | none => simp
  | some ext =>
    simp only [Option.some.injEq]
    by_cases h1 : ext = str ("gzip")
    · simp [h1]
    · by_cases h2 : ext = str ("gz")
      · simp [h2]
      · have hor : ¬(ext = str ("gzip") ∨ ext = str ("gz")) := by tauto
        simp [hor, h1, h2]

/-- C5: an operation whose first invocation fails with an error classified
`Permanent` is never retried by the retry executor: it is invoked exactly
once and the error is propagated unchanged. -/
theorem retry_permanent_aborts {ε α : Type} (op : Nat → Except (BackoffError ε) α × Nat)
    (fuel : Nat) (e : ε) (k : Nat) (h : op 0 = (.error (.Permanent e), k)) :
    retryRun op fuel = (.error e, 1, k) := by
  unfold retryRun retryExec
  rw [h]

/-- C5 witness: a concrete permanently-failing operation is invoked once
and its error comes back unchanged. -/
theorem retry_permanent_aborts_witness :
    retryRun (fun _ => ((.error (.Permanent 42) : Except (BackoffError Nat) Bool), 1)) 9 =
      (.error 42, 1, 1) :=
  retry_permanent_aborts (fun _ => (.error (.Permanent 42), 1)) 9 42 1 rfl

/-- C2 counterexample: on a prefix-type address (`trailing_slash = true`,
here `gs://b/x/`) `delete_with_retry` does not fail early: the backend
delete is invoked (third component 1, one backend call) and the call
succeeds. -/
theorem delete_prefix_counterexample :
    (GcsFile.mk (str ("b")) (str ("x")) true).trailing_slash = true ∧
    GcsFile.delete_with_retry okOracle ⟨str ("b"), str ("x"), true⟩ 0 =
      (.ok (), 1, 1) :=
  ⟨rfl, rfl⟩

/-- C2 amended: `exists` and `read` on a prefix-type address fail with the
`GcsInvalidBucketPathError` before the retry loop, with zero backend calls;
`delete` performs no such check and consults the backend (one closure
invocation and one backend call already on a fuel-0 run, since the stored
name no longer carries the trailing slash). -/
theorem prefix_guard_amended (o : GcsOracle)
    (dec : Bytes → Except CompressionError Bytes) (f : GcsFile) (fuel : Nat)
    (dc : Option Compression) (h : f.trailing_slash = true) :
    GcsFile.is_exists_with_retry o f fuel =
      (.error (.GcsInvalidBucketPathError f.name), 0, 0) ∧
    GcsFile.download_with_retry o dec f fuel dc =
      (.error (.GcsInvalidBucketPathError f.name), 0, 0) ∧
    (endsWithSlash f.name = false →
      (GcsFile.delete_with_retry o f 0).2 = (1, 1)) := by
  refine ⟨?_, ?_, ?_⟩
  · unfold GcsFile.is_exists_with_retry
    rw [if_pos h]
  · unfold GcsFile.download_with_retry
    rw [if_pos h]
  · intro hn
    unfold GcsFile.delete_with_retry retryRun retryExec delete_object
    rw [hn]
    cases hd : o.objDelete 0 with
    | ok v => simp [hd, Except.mapError]
    | error e => simp [hd, Except.mapError]

/-- C2 amended witness at a concrete prefix-type address. -/
theorem prefix_guard_amended_witness :
    GcsFile.is_exists_with_retry okOracle ⟨str ("bk"), str ("nm"), true⟩ 3 =
      (.error (.GcsInvalidBucketPathError (str ("nm"))), 0, 0) ∧
    GcsFile.download_with_retry okOracle idDec ⟨str ("bk"), str ("nm"), true⟩ 3 none =
      (.error (.GcsInvalidBucketPathError (str ("nm"))), 0, 0) ∧
    (endsWithSlash (str ("nm")) = false →
      (GcsFile.delete_with_retry okOracle ⟨str ("bk"), str ("nm"), true⟩ 0).2 = (1, 1)) :=
  prefix_guard_amended okOracle idDec ⟨str ("bk"), str ("nm"), true⟩ 3 none rfl

/-- C3 counterexample: a payload that is not valid UTF-8 (the single byte
`0xFF`) makes `get_file_contents_str` panic (`unwrap` on the failed
`from_utf8`), rather than return a decode-error value. -/
theorem read_as_text_invalid_utf8_counterexample :
    get_file_contents_str (.ok (some [255])) = .panicked := rfl

/-- C3 amended: `get_file_contents_str` passes errors and absent payloads
through, returns the decoded string on valid UTF-8 — and panics (does not
return an error value) on bytes that are not valid UTF-8. -/
theorem read_as_text_amended :
    (∀ e : FileUtilError, get_file_contents_str (.error e) = .ok (.error e)) ∧
    get_file_contents_str (.ok none) = .ok (.ok none) ∧
    (∀ (bs : Bytes) (cs : List Char), utf8Decode bs = some cs →
      get_file_contents_str (.ok (some bs)) = .ok (.ok (some cs))) ∧
    (∀ bs : Bytes, utf8Decode bs = none →
      get_file_contents_str (.ok (some bs)) = .panicked) := by
  refine ⟨fun e => rfl, rfl, fun bs cs h => ?_, fun bs h => ?_⟩ <;>
    simp [get_file_contents_str, h]

/-- C3 amended witness: the bytes of `"hi"` decode to `hi`. -/
theorem read_as_text_amended_witness :
    utf8Decode [104, 105] = some ['h', 'i'] ∧
    get_file_contents_str (.ok (some [104, 105])) = .ok (.ok (some ['h', 'i'])) :=
  ⟨rfl, read_as_text_amended.2.2.1 [104, 105] ['h', 'i'] rfl⟩

/-- C4 counterexample: when the existence check fails with a transport
error (not a `NotFound`), `GcsFile::download` reports the success value
`Ok(None)` — the claim's "surfaced as an error, never silently NotFound"
does not hold. -/
theorem download_exists_error_counterexample :
    (object_exists transportFailOracle 0 (str ("b")) (str ("x"))).1 =
      .error (.StorageAccessError .Other) ∧
    GcsFile.download transportFailOracle 0 (str ("b")) (str ("x")) =
      (.ok none, 1) :=
  ⟨rfl, rfl⟩

/-- C4 amended: `GcsFile::download` first runs the existence check; only
when that check returns `Ok(true)` does it download (surfacing download
errors); every other outcome of the check — confirmed absence `Ok(false)`
and failures of the check alike — yields the success value `Ok(None)`. -/
theorem download_amended (o : GcsOracle) (i : Nat) (bucket name : Str) :
    ((object_exists o i bucket name).1 = .ok true →
      GcsFile.download o i bucket name =
        ((match (download_object o i bucket name).1 with
          | .ok body => .ok (some body)
          | .error e => .error e),
         (object_exists o i bucket name).2 + (download_object o i bucket name).2)) ∧
    ((object_exists o i bucket name).1 ≠ .ok true →
      GcsFile.download o i bucket name = (.ok none, (object_exists o i bucket name).2)) := by
  rcases he : object_exists o i bucket name with ⟨r, k⟩
  rcases hd : download_object o i bucket name with ⟨r2, k2⟩
  constructor
  · intro h
    simp only at h
    subst h
    simp [GcsFile.download, he, hd]
  · intro h
    simp only at h
    unfold GcsFile.download
    rw [he]
    match r, h with
    | .ok false, _ => rfl
    | .error e, _ => rfl
    | .ok true, h => exact absurd rfl h

/-- C4 amended witness: with a fully successful backend the existence check
confirms the object and the payload is downloaded (two backend calls). -/
theorem download_amended_witness :
    (object_exists okOracle 0 (str ("b")) (str ("x"))).1 = .ok true ∧
    GcsFile.download okOracle 0 (str ("b")) (str ("x")) =
      ((match (download_object okOracle 0 (str ("b")) (str ("x"))).1 with
        | .ok body => .ok (some body)
        | .error e => .error e),
       (object_exists okOracle 0 (str ("b")) (str ("x"))).2 +
         (download_object okOracle 0 (str ("b")) (str ("x"))).2) :=
  ⟨rfl, (download_amended okOracle 0 (str ("b")) (str ("x"))).1 rfl⟩

/-- C6 counterexample: `ftp://host/file` is a well-formed absolute URL of a
scheme other than http/https; the claim says it must be treated as a local
path, but the dispatcher sends it to the Web backend. -/
theorem dispatch_scheme_counterexample :
    urlParseModel (str ("ftp://host/file")) = some (str ("ftp://host/file")) ∧
    get_file_contents_route (str ("ftp://host/file")) =
      .web (str ("ftp://host/file")) :=
  ⟨rfl, rfl⟩

/-- C6 amended: the dispatcher routes on URL parsability alone, not on the
scheme: an identifier that parses as an absolute URL of any scheme goes to
the GCS backend if it is a valid `gs://` object address and otherwise to
the Web backend; only an identifier that fails URL parsing is treated
verbatim as a local filesystem path. -/
theorem dispatch_amended (s : Str) :
    ((urlParseModel s).isNone → get_file_contents_route s = .localFs s) ∧
    (∀ u f, urlParseModel s = some u → GcsFile.new_with_url u = .ok f →
      get_file_contents_route s = .gcs f) ∧
    (∀ u e, urlParseModel s = some u → GcsFile.new_with_url u = .error e →
      get_file_contents_route s = .web u) := by
  refine ⟨?_, ?_, ?_⟩
  · intro h
    unfold get_file_contents_route
    rw [Option.isNone_iff_eq_none.mp h]
  · intro u f hu hf
    unfold get_file_contents_route
    rw [hu]
    dsimp only
    rw [hf]
  · intro u e hu hf
    unfold get_file_contents_route
    rw [hu]
    dsimp only
    rw [hf]

/-- C6 amended witness: a plain relative path fails URL parsing and is
dispatched to the local filesystem backend. -/
theorem dispatch_amended_witness :
    (urlParseModel (str ("dir/file.txt"))).isNone = true ∧
    get_file_contents_route (str ("dir/file.txt")) =
      .localFs (str ("dir/file.txt")) :=
  ⟨rfl, (dispatch_amended (str ("dir/file.txt"))).1 rfl⟩

/-- C8 counterexample: parsing `gs://b/x//` succeeds, but only one trailing
slash is stripped: the resulting `GcsFile` has `name = "x/"`, which still
ends with `/`, contradicting the claimed invariant. -/
theorem parse_invariant_counterexample :
    GcsFile.new (str ("gs://b/x//")) = .ok ⟨str ("b"), str ("x/"), true⟩ ∧
    endsWithSlash (str ("x/")) = true :=
  ⟨rfl, rfl⟩

/-- C8 amended: every `GcsFile` produced by `new_with_url` has a non-empty
bucket, a non-empty name, and a name that does not start with `/`; exactly
one trailing separator is stripped into `trailing_slash` (so the name keeps
a trailing `/` when the identifier's name part ended with two). -/
theorem parse_invariant_amended (s : Str) (f : GcsFile)
    (h : GcsFile.new_with_url s = .ok f) :
    f.bucket ≠ [] ∧ f.name ≠ [] ∧ f.name.head? ≠ some '/' ∧
    (f.trailing_slash = true → (gcsCapture s).2 = f.name ++ ['/']) ∧
    (f.trailing_slash = false → (gcsCapture s).2 = f.name) := by
  unfold GcsFile.new_with_url at h
  by_cases hp : gsPrefix.isPrefixOf s = false
  · rw [if_pos hp] at h
    exact absurd h (by simp)
  · rw [if_neg hp] at h
    rcases hpr : GcsFile.parse_bucket_and_name_from_url s with e | ⟨b, n, tr⟩
    · rw [hpr] at h
      exact absurd h (by simp)
    · rw [hpr] at h
      simp only [Except.ok.injEq] at h
      subst h
      exact parse_bucket_inv s b n tr hpr

/-- C8 amended witness at `gs://bk/nm/`. -/
theorem parse_invariant_amended_witness :
    str ("bk") ≠ ([] : Str) ∧ str ("nm") ≠ ([] : Str) ∧
    (str ("nm")).head? ≠ some '/' ∧
    (true = true → (gcsCapture (str ("gs://bk/nm/"))).2 = str ("nm") ++ ['/']) ∧
    (true = false → (gcsCapture (str ("gs://bk/nm/"))).2 = str ("nm")) :=
  parse_invariant_amended (str ("gs://bk/nm/")) ⟨str ("bk"), str ("nm"), true⟩ rfl

/-- C1: for every object-store identifier of the canonical form
`gs://bucket/name` or `gs://bucket/name/` — bucket non-empty without `/`,
name non-empty neither starting nor ending with `/`, over characters the
modelled URL parser leaves unchanged — parsing into a `GcsFile` and
rendering with `Display` yields exactly the input. -/
theorem gcs_render_parse_roundtrip (bucket name : Str) (tr : Bool)
    (hb : bucket ≠ [])
    (hbs : ∀ c ∈ bucket, urlSafeChar c = true)
    (hn : name ≠ [])
    (hns : ∀ c ∈ name, (urlSafeChar c || c == '/') = true)
    (hh : name.head? ≠ some '/')
    (hl : name.getLast? ≠ some '/') :
    (GcsFile.new (gsPrefix ++ bucket ++ ['/'] ++ name ++ (if tr then ['/'] else []))).map
        GcsFile.render =
      .ok (gsPrefix ++ bucket ++ ['/'] ++ name ++ (if tr then ['/'] else [])) := by
  have hshape : gsPrefix ++ bucket ++ ['/'] ++ name ++ (if tr then ['/'] else []) =
      gsPrefix ++ (bucket ++ '/' :: (name ++ (if tr then ['/'] else []))) := by
    simp [List.append_assoc]
  rw [hshape, gcs_new_canonical bucket name tr hb hbs hn hns hh hl]
  simp [Except.map, GcsFile.render, List.append_assoc]

/-- C1 witness at the spec's own example identifier
`gs://mybucket/data/file.gz`. -/
theorem gcs_render_parse_roundtrip_witness :
    (GcsFile.new (gsPrefix ++ str ("mybucket") ++ ['/'] ++ str ("data/file.gz") ++
        (if false then ['/'] else []))).map GcsFile.render =
      .ok (gsPrefix ++ str ("mybucket") ++ ['/'] ++ str ("data/file.gz") ++
        (if false then ['/'] else [])) :=
  gcs_render_parse_roundtrip (str ("mybucket")) (str ("data/file.gz")) false
    (by decide) (by decide) (by decide) (by decide) (by decide) (by decide)

/-- C9: a `GcsFile` whose bucket is non-empty without `/`, whose name is
non-empty and neither starts nor ends with `/`, over characters the URL
parser leaves unescaped, is reproduced exactly by re-parsing its rendered
string: `GcsFile::new(f.to_string()) == Ok(f)`. -/
theorem gcs_parse_render_inverse (f : GcsFile)
    (hb : f.bucket ≠ [])
    (hbs : ∀ c ∈ f.bucket, urlSafeChar c = true)
    (hn : f.name ≠ [])
    (hns : ∀ c ∈ f.name, (urlSafeChar c || c == '/') = true)
    (hh : f.name.head? ≠ some '/')
    (hl : f.name.getLast? ≠ some '/') :
    GcsFile.new (GcsFile.render f) = .ok f := by
  obtain ⟨bucket, name, tr⟩ := f
  have hshape : GcsFile.render ⟨bucket, name, tr⟩ =
      gsPrefix ++ (bucket ++ '/' :: (name ++ (if tr then ['/'] else []))) := by
    simp [GcsFile.render, List.append_assoc]
  rw [hshape]
  exact gcs_new_canonical bucket name tr hb hbs hn hns hh hl

/-- C9 witness at the prefix-type value `gs://bk2/dir/obj/`. -/
theorem gcs_parse_render_inverse_witness :
    GcsFile.new (GcsFile.render ⟨str ("bk2"), str ("dir/obj"), true⟩) =
      .ok ⟨str ("bk2"), str ("dir/obj"), true⟩ :=
  gcs_parse_render_inverse ⟨str ("bk2"), str ("dir/obj"), true⟩
    (by decide) (by decide) (by decide) (by decide) (by decide) (by decide)

end FileDougu
